/-
Verification of the Love-OS team-dynamics engine.

The Python source (`team_optimizer.py`, `stress_test.py`) is shallowly
embedded below.  Machine floats are modelled by exact rationals `ℚ`; numpy
elementwise array operations on well-shaped inputs are modelled by functions
`Fin n → ℚ`, and the dynamic (possibly mis-shaped) behaviour of the same
routines is modelled separately at the `List` level, with numpy/Python
runtime errors made explicit in an `Except` monad.
-/
import Mathlib

namespace LoveOS

/-! ### Core physics engine (`team_optimizer.py`), well-shaped inputs

`L`, `V`, `R` are the per-node attribute arrays, `S` the pairwise
compatibility matrix.  A well-shaped call has all of them indexed by
`Fin n`. -/

/-- Embeds `compute_individual_gravity` (team_optimizer.py lines 14-18):
`G = (L**2 * V) / (R + eps)`, elementwise. -/
def compute_individual_gravity {n : ℕ} (L V R : Fin n → ℚ) (eps : ℚ) : Fin n → ℚ :=
  fun i => (L i) ^ 2 * V i / (R i + eps)

/-- The dictionary returned by `analyze_team_state`. -/
structure Metrics (n : ℕ) where
  G : Fin n → ℚ
  K_team : ℚ
  D_team : ℚ
  Margin : ℚ
  Is_Stable : Bool
  deriving DecidableEq

/-- Embeds `analyze_team_state` (team_optimizer.py lines 20-47).
The nested loop `for i in range(n): for j in range(i+1, n)` accumulating
`kappa * G[i] * G[j] * S[i, j]` becomes the nested sum over `j` in
`univ.filter (fun j => i < j)`; `np.triu(1 - S, 1).sum()` is the same
index range applied to `1 - S[i, j]`; `Is_Stable` is the boolean
`K_team > D_team`. -/
def analyze_team_state {n : ℕ} (L V R : Fin n → ℚ) (S : Fin n → Fin n → ℚ)
    (kappa eps : ℚ) : Metrics n :=
  let G := compute_individual_gravity L V R eps
  let K_team : ℚ :=
    ∑ i : Fin n, ∑ j ∈ Finset.univ.filter (fun j => i < j), kappa * G i * G j * S i j
  let misalignment : ℚ :=
    ∑ i : Fin n, ∑ j ∈ Finset.univ.filter (fun j => i < j), (1 - S i j)
  let D_team : ℚ := (∑ i, R i) + misalignment
  { G := G
    K_team := K_team
    D_team := D_team
    Margin := K_team - D_team
    Is_Stable := decide (K_team > D_team) }

lemma analyze_K_eq {n : ℕ} (L V R : Fin n → ℚ) (S : Fin n → Fin n → ℚ)
    (kappa eps : ℚ) :
    (analyze_team_state L V R S kappa eps).K_team
      = ∑ i : Fin n, ∑ j ∈ Finset.univ.filter (fun j => i < j),
          kappa * compute_individual_gravity L V R eps i
            * compute_individual_gravity L V R eps j * S i j := rfl

lemma analyze_D_eq {n : ℕ} (L V R : Fin n → ℚ) (S : Fin n → Fin n → ℚ)
    (kappa eps : ℚ) :
    (analyze_team_state L V R S kappa eps).D_team
      = (∑ i, R i)
        + ∑ i : Fin n, ∑ j ∈ Finset.univ.filter (fun j => i < j), (1 - S i j) := rfl

lemma analyze_Margin_eq {n : ℕ} (L V R : Fin n → ℚ) (S : Fin n → Fin n → ℚ)
    (kappa eps : ℚ) :
    (analyze_team_state L V R S kappa eps).Margin
      = (analyze_team_state L V R S kappa eps).K_team
        - (analyze_team_state L V R S kappa eps).D_team := rfl

/-- The set of ordered pairs `(i, j)` with `i < j`: one representative per
unordered pair of distinct nodes. -/
def upperPairs (n : ℕ) : Finset (Fin n × Fin n) :=
  Finset.univ.filter (fun p => p.1 < p.2)

/-- Nested `i`-then-`j > i` summation equals summation over `upperPairs`. -/
lemma sum_upperPairs {n : ℕ} (f : Fin n → Fin n → ℚ) :
    ∑ p ∈ upperPairs n, f p.1 p.2
      = ∑ i : Fin n, ∑ j ∈ Finset.univ.filter (fun j => i < j), f i j := by
  exact Finset.sum_finset_product (upperPairs n) Finset.univ
    (fun i => Finset.univ.filter (fun j => i < j))
    (by intro p; simp [upperPairs])

end LoveOS

namespace LoveOS

/-- Claim C1: for every snapshot, `analyze_team_state` returns
`G[i] = L[i]^2 * V[i] / (R[i] + eps)` for every node, `K` the sum over
unordered pairs `i < j` of `kappa * G[i] * G[j] * S[i][j]` (each pair once),
`D` the sum of all `R` plus the sum over pairs `i < j` of `1 - S[i][j]`,
`Margin = K - D`, and a stability flag true exactly when `Margin > 0`
strictly (a margin of exactly zero is reported unstable). -/
theorem evaluator_formulas {n : ℕ} (L V R : Fin n → ℚ) (S : Fin n → Fin n → ℚ)
    (kappa eps : ℚ) :
    (∀ i, (analyze_team_state L V R S kappa eps).G i
        = (L i) ^ 2 * V i / (R i + eps)) ∧
    (analyze_team_state L V R S kappa eps).K_team = ∑ p ∈ upperPairs n,
      kappa * ((L p.1) ^ 2 * V p.1 / (R p.1 + eps))
        * ((L p.2) ^ 2 * V p.2 / (R p.2 + eps)) * S p.1 p.2 ∧
    (analyze_team_state L V R S kappa eps).D_team
      = (∑ i, R i) + ∑ p ∈ upperPairs n, (1 - S p.1 p.2) ∧
    (analyze_team_state L V R S kappa eps).Margin
      = (analyze_team_state L V R S kappa eps).K_team
        - (analyze_team_state L V R S kappa eps).D_team ∧
    (analyze_team_state L V R S kappa eps).Is_Stable
      = decide (0 < (analyze_team_state L V R S kappa eps).Margin) := by
  refine ⟨fun i => rfl, ?_, ?_, rfl, ?_⟩
  · simpa [analyze_team_state, compute_individual_gravity] using
      (sum_upperPairs (n := n)
        (fun i j => kappa * ((L i) ^ 2 * V i / (R i + eps))
          * ((L j) ^ 2 * V j / (R j + eps)) * S i j)).symm
  · simpa [analyze_team_state] using
      congrArg (fun x => (∑ i, R i) + x)
        (sum_upperPairs (n := n) (fun i j => 1 - S i j)).symm
  · simp only [analyze_team_state]
    exact decide_eq_decide.mpr sub_pos.symm

/-- Claim C10: the Evaluator reads only the strict upper triangle of `S`:
two matrices that agree on every entry with `i < j` give identical
`K`, `D`, `Margin` and stability flag (indeed identical `Metrics`), whatever
the diagonal and lower triangle hold. -/
theorem evaluator_upper_triangle_only {n : ℕ} (L V R : Fin n → ℚ)
    (S1 S2 : Fin n → Fin n → ℚ) (kappa eps : ℚ)
    (h : ∀ i j : Fin n, i < j → S1 i j = S2 i j) :
    analyze_team_state L V R S1 kappa eps = analyze_team_state L V R S2 kappa eps := by
  have hK : ∀ G : Fin n → ℚ,
      (∑ i : Fin n, ∑ j ∈ Finset.univ.filter (fun j => i < j),
          kappa * G i * G j * S1 i j)
        = ∑ i : Fin n, ∑ j ∈ Finset.univ.filter (fun j => i < j),
            kappa * G i * G j * S2 i j := by
    intro G
    refine Finset.sum_congr rfl fun i _ => Finset.sum_congr rfl fun j hj => ?_
    rw [h i j (by simpa using hj)]
  have hMis :
      (∑ i : Fin n, ∑ j ∈ Finset.univ.filter (fun j => i < j), (1 - S1 i j))
        = ∑ i : Fin n, ∑ j ∈ Finset.univ.filter (fun j => i < j), (1 - S2 i j) := by
    refine Finset.sum_congr rfl fun i _ => Finset.sum_congr rfl fun j hj => ?_
    rw [h i j (by simpa using hj)]
  simp only [analyze_team_state, hK, hMis]

/-- Witness for C10 at a concrete input: `S1` and `S2` agree at the single
upper-triangle entry `(0, 1)` but differ on the diagonal and at `(1, 0)`. -/
theorem evaluator_upper_triangle_only_witness :
    analyze_team_state (n := 2) ![3, 4] ![2, 5] ![1, 2] ![![5, 7], ![9, 6]] 2 1
      = analyze_team_state ![3, 4] ![2, 5] ![1, 2] ![![0, 7], ![4, 0]] 2 1 :=
  evaluator_upper_triangle_only ![3, 4] ![2, 5] ![1, 2]
    ![![5, 7], ![9, 6]] ![![0, 7], ![4, 0]] 2 1 (by decide)

/-- The lower-triangle pairs, mirror image of `upperPairs`. -/
def lowerPairs (n : ℕ) : Finset (Fin n × Fin n) :=
  Finset.univ.filter (fun p => p.2 < p.1)

lemma offDiag_eq_upper_union_lower (n : ℕ) :
    (Finset.univ : Finset (Fin n)).offDiag = upperPairs n ∪ lowerPairs n := by
  ext p
  simp only [Finset.mem_offDiag, Finset.mem_union, upperPairs, lowerPairs,
    Finset.mem_filter, Finset.mem_univ, true_and]
  constructor
  · intro hne; exact lt_or_gt_of_ne hne
  · intro h; rcases h with h | h
    · exact ne_of_lt h
    · exact ne_of_gt h

lemma sum_lowerPairs_eq (n : ℕ) (f : Fin n → Fin n → ℚ) :
    ∑ p ∈ lowerPairs n, f p.1 p.2 = ∑ p ∈ upperPairs n, f p.2 p.1 := by
  refine Finset.sum_nbij' Prod.swap Prod.swap ?_ ?_ ?_ ?_ ?_
  · intro p hp; simpa [upperPairs, lowerPairs] using (by simpa [lowerPairs] using hp)
  · intro p hp; simpa [upperPairs, lowerPairs] using (by simpa [upperPairs] using hp)
  · intro p _; rfl
  · intro p _; rfl
  · intro p _; rfl

/-- For a symmetric summand, twice the upper-triangle sum is the sum over
all ordered pairs of distinct indices. -/
lemma two_mul_sum_upperPairs (n : ℕ) (f : Fin n → Fin n → ℚ)
    (hf : ∀ i j, f i j = f j i) :
    2 * ∑ p ∈ upperPairs n, f p.1 p.2
      = ∑ p ∈ (Finset.univ : Finset (Fin n)).offDiag, f p.1 p.2 := by
  have hdisj : Disjoint (upperPairs n) (lowerPairs n) := by
    rw [Finset.disjoint_left]
    intro p hp hq
    simp only [upperPairs, lowerPairs, Finset.mem_filter] at hp hq
    exact absurd hq.2 (not_lt_of_lt hp.2)
  rw [offDiag_eq_upper_union_lower, Finset.sum_union hdisj, sum_lowerPairs_eq]
  have : ∑ p ∈ upperPairs n, f p.2 p.1 = ∑ p ∈ upperPairs n, f p.1 p.2 :=
    Finset.sum_congr rfl fun p _ => hf p.2 p.1
  rw [this]; ring

/-- The sum over ordered distinct pairs is invariant under relabeling by a
permutation. -/
lemma sum_offDiag_comp_perm {n : ℕ} (f : Fin n → Fin n → ℚ) (σ : Equiv.Perm (Fin n)) :
    ∑ p ∈ (Finset.univ : Finset (Fin n)).offDiag, f (σ p.1) (σ p.2)
      = ∑ p ∈ (Finset.univ : Finset (Fin n)).offDiag, f p.1 p.2 := by
  refine Finset.sum_equiv (Equiv.prodCongr σ σ) ?_ ?_
  · intro p
    simp only [Finset.mem_offDiag, Finset.mem_univ, true_and, Equiv.prodCongr_apply,
      Prod.map_fst, Prod.map_snd]
    exact (Equiv.injective σ).ne_iff.symm
  · intro p _; rfl

/-- For a symmetric summand, the upper-triangle sum is invariant under
relabeling by a permutation. -/
lemma sum_upperPairs_comp_perm {n : ℕ} (f : Fin n → Fin n → ℚ)
    (hf : ∀ i j, f i j = f j i) (σ : Equiv.Perm (Fin n)) :
    ∑ p ∈ upperPairs n, f (σ p.1) (σ p.2) = ∑ p ∈ upperPairs n, f p.1 p.2 := by
  have hg : ∀ i j, f (σ i) (σ j) = f (σ j) (σ i) := fun i j => hf (σ i) (σ j)
  have h2 := two_mul_sum_upperPairs n (fun i j => f (σ i) (σ j)) hg
  have h3 := sum_offDiag_comp_perm f σ
  have h4 := two_mul_sum_upperPairs n f hf
  have : 2 * ∑ p ∈ upperPairs n, f (σ p.1) (σ p.2)
      = 2 * ∑ p ∈ upperPairs n, f p.1 p.2 := by rw [h2, h3, h4]
  exact mul_left_cancel₀ two_ne_zero this

/-- Claim C6: with `S` symmetric, permuting the node order (and the rows and
columns of `S` accordingly) leaves `K_team`, `D_team` and `Margin` unchanged. -/
theorem evaluator_relabel_invariant {n : ℕ} (L V R : Fin n → ℚ)
    (S : Fin n → Fin n → ℚ) (kappa eps : ℚ) (σ : Equiv.Perm (Fin n))
    (hS : ∀ i j, S i j = S j i) :
    (analyze_team_state (fun i => L (σ i)) (fun i => V (σ i))
        (fun i => R (σ i)) (fun i j => S (σ i) (σ j)) kappa eps).K_team
      = (analyze_team_state L V R S kappa eps).K_team ∧
    (analyze_team_state (fun i => L (σ i)) (fun i => V (σ i))
        (fun i => R (σ i)) (fun i j => S (σ i) (σ j)) kappa eps).D_team
      = (analyze_team_state L V R S kappa eps).D_team ∧
    (analyze_team_state (fun i => L (σ i)) (fun i => V (σ i))
        (fun i => R (σ i)) (fun i j => S (σ i) (σ j)) kappa eps).Margin
      = (analyze_team_state L V R S kappa eps).Margin := by
  set G := compute_individual_gravity L V R eps with hG
  have hGperm : compute_individual_gravity (fun i => L (σ i)) (fun i => V (σ i))
      (fun i => R (σ i)) eps = fun i => G (σ i) := rfl
  have hK : (analyze_team_state (fun i => L (σ i)) (fun i => V (σ i))
        (fun i => R (σ i)) (fun i j => S (σ i) (σ j)) kappa eps).K_team
      = (analyze_team_state L V R S kappa eps).K_team := by
    show (∑ i : Fin n, ∑ j ∈ Finset.univ.filter (fun j => i < j),
        kappa * G (σ i) * G (σ j) * S (σ i) (σ j))
      = ∑ i : Fin n, ∑ j ∈ Finset.univ.filter (fun j => i < j),
          kappa * G i * G j * S i j
    rw [← sum_upperPairs (fun i j => kappa * G (σ i) * G (σ j) * S (σ i) (σ j)),
      ← sum_upperPairs (fun i j => kappa * G i * G j * S i j)]
    exact sum_upperPairs_comp_perm (fun i j => kappa * G i * G j * S i j)
      (fun i j => by
        show kappa * G i * G j * S i j = kappa * G j * G i * S j i
        rw [hS i j]; ring) σ
  have hMis : (∑ i : Fin n, ∑ j ∈ Finset.univ.filter (fun j => i < j),
        (1 - S (σ i) (σ j)))
      = ∑ i : Fin n, ∑ j ∈ Finset.univ.filter (fun j => i < j), (1 - S i j) := by
    rw [← sum_upperPairs (fun i j => 1 - S (σ i) (σ j)),
      ← sum_upperPairs (fun i j => 1 - S i j)]
    exact sum_upperPairs_comp_perm (fun i j => 1 - S i j)
      (fun i j => by
        show 1 - S i j = 1 - S j i
        rw [hS i j]) σ
  have hR : (∑ i, R (σ i)) = ∑ i, R i := Equiv.sum_comp σ R
  have hD : (analyze_team_state (fun i => L (σ i)) (fun i => V (σ i))
        (fun i => R (σ i)) (fun i j => S (σ i) (σ j)) kappa eps).D_team
      = (analyze_team_state L V R S kappa eps).D_team := by
    show (∑ i, R (σ i)) + (∑ i : Fin n, ∑ j ∈ Finset.univ.filter (fun j => i < j),
        (1 - S (σ i) (σ j)))
      = (∑ i, R i) + ∑ i : Fin n, ∑ j ∈ Finset.univ.filter (fun j => i < j), (1 - S i j)
    rw [hR, hMis]
  refine ⟨hK, hD, ?_⟩
  show (analyze_team_state (fun i => L (σ i)) (fun i => V (σ i)) (fun i => R (σ i))
      (fun i j => S (σ i) (σ j)) kappa eps).K_team
    - (analyze_team_state (fun i => L (σ i)) (fun i => V (σ i)) (fun i => R (σ i))
        (fun i j => S (σ i) (σ j)) kappa eps).D_team
    = (analyze_team_state L V R S kappa eps).K_team
      - (analyze_team_state L V R S kappa eps).D_team
  rw [hK, hD]

/-- Witness for C6 at a concrete input: swapping the two nodes of a
symmetric 2-node snapshot. -/
theorem evaluator_relabel_invariant_witness :
    let m := analyze_team_state (n := 2) ![3, 4] ![2, 5] ![1, 2] ![![0, 7], ![7, 0]] 2 1
    let m' := analyze_team_state
      (fun i => (![3, 4] : Fin 2 → ℚ) (Equiv.swap 0 1 i))
      (fun i => (![2, 5] : Fin 2 → ℚ) (Equiv.swap 0 1 i))
      (fun i => (![1, 2] : Fin 2 → ℚ) (Equiv.swap 0 1 i))
      (fun i j => (![![0, 7], ![7, 0]] : Fin 2 → Fin 2 → ℚ) (Equiv.swap 0 1 i)
        (Equiv.swap 0 1 j)) 2 1
    m'.K_team = m.K_team ∧ m'.D_team = m.D_team ∧ m'.Margin = m.Margin :=
  evaluator_relabel_invariant ![3, 4] ![2, 5] ![1, 2] ![![0, 7], ![7, 0]] 2 1
    (Equiv.swap 0 1) (by decide)

/-- Embeds `calculate_marginal_gains` (team_optimizer.py lines 49-78).
`interaction_sum[i]` is the comprehension `sum(kappa * S[i, j] * G[j] for j
in range(n) if i != j)`; `dG_dR` and `dM_dR` are the elementwise formulas of
lines 66 and 68.  The loop of lines 72-76, which starts from
`np.zeros_like(S)` and writes `kappa * G[i] * G[j] + 1.0` to both `[i, j]`
and `[j, i]` for every `i < j`, leaves the diagonal at zero; it is embedded
as the three-way comparison on `(a, b)`. -/
def calculate_marginal_gains {n : ℕ} (L V R : Fin n → ℚ) (S : Fin n → Fin n → ℚ)
    (kappa eps : ℚ) : (Fin n → ℚ) × (Fin n → Fin n → ℚ) :=
  let G := compute_individual_gravity L V R eps
  let interaction_sum : Fin n → ℚ :=
    fun i => ∑ j ∈ Finset.univ.filter (fun j => i ≠ j), kappa * S i j * G j
  let dG_dR : Fin n → ℚ := fun i => -((L i) ^ 2 * V i) / (R i + eps) ^ 2
  let dM_dR : Fin n → ℚ := fun i => interaction_sum i * dG_dR i - 1
  let dM_dS : Fin n → Fin n → ℚ := fun a b =>
    if a < b then kappa * G a * G b + 1
    else if b < a then kappa * G b * G a + 1
    else 0
  (dM_dR, dM_dS)

/-- Claim C2: the Sensitivity Analyzer returns exactly the stated analytic
gradient formulas: `dMargin/dR[i] = interaction_sum[i] * (-(L[i]^2 * V[i]) /
(R[i] + eps)^2) - 1` with `interaction_sum[i] = kappa * Σ_{j ≠ i} S[i][j] *
G[j]`, and `dMargin/dS[i][j] = kappa * G[i] * G[j] + 1` for `i < j`, with
`G` given by the gravity formula of 4.1. -/
theorem sensitivity_formulas {n : ℕ} (L V R : Fin n → ℚ) (S : Fin n → Fin n → ℚ)
    (kappa eps : ℚ) :
    (∀ i, (calculate_marginal_gains L V R S kappa eps).1 i
        = (kappa * ∑ j ∈ Finset.univ.filter (fun j => j ≠ i),
              S i j * compute_individual_gravity L V R eps j)
            * (-((L i) ^ 2 * V i) / (R i + eps) ^ 2) - 1) ∧
    (∀ i j, i < j → (calculate_marginal_gains L V R S kappa eps).2 i j
        = kappa * compute_individual_gravity L V R eps i
            * compute_individual_gravity L V R eps j + 1) := by
  refine ⟨fun i => ?_, fun i j hij => ?_⟩
  · have hfilt : Finset.univ.filter (fun j : Fin n => i ≠ j)
        = Finset.univ.filter (fun j : Fin n => j ≠ i) := by
      ext j; simp [ne_comm]
    simp only [calculate_marginal_gains, hfilt, Finset.mul_sum, mul_assoc]
  · simp [calculate_marginal_gains, hij]

/-- Claim C7: with `L, V, R ≥ 0`, `S` entries in `[0, 1]`, `kappa > 0` and
`eps > 0`, strictly increasing `R[i]` while holding every other input fixed
strictly decreases the Margin. -/
theorem margin_strict_antitone_in_R {n : ℕ} (L V R : Fin n → ℚ)
    (S : Fin n → Fin n → ℚ) (kappa eps : ℚ) (i : Fin n) (rp : ℚ)
    (hL : ∀ k, 0 ≤ L k) (hV : ∀ k, 0 ≤ V k) (hR : ∀ k, 0 ≤ R k)
    (hS0 : ∀ a b, 0 ≤ S a b) (hS1 : ∀ a b, S a b ≤ 1)
    (hk : 0 < kappa) (he : 0 < eps) (hr : R i < rp) :
    (analyze_team_state L V (Function.update R i rp) S kappa eps).Margin
      < (analyze_team_state L V R S kappa eps).Margin := by
  classical
  set Rp := Function.update R i rp with hRpdef
  have hRpnonneg : ∀ k, 0 ≤ Rp k := by
    intro k
    by_cases hki : k = i
    · subst hki; simp [hRpdef, le_of_lt (lt_of_le_of_lt (hR k) hr)]
    · simp [hRpdef, Function.update_noteq hki, hR k]
  have hden : ∀ k, (0 : ℚ) < R k + eps := fun k =>
    add_pos_of_nonneg_of_pos (hR k) he
  have hdenp : ∀ k, (0 : ℚ) < Rp k + eps := fun k =>
    add_pos_of_nonneg_of_pos (hRpnonneg k) he
  set G := compute_individual_gravity L V R eps with hGdef
  set Gp := compute_individual_gravity L V Rp eps with hGpdef
  have hnum : ∀ k, (0 : ℚ) ≤ (L k) ^ 2 * V k := fun k =>
    mul_nonneg (pow_nonneg (hL k) 2) (hV k)
  have hGnonneg : ∀ k, 0 ≤ G k := fun k => div_nonneg (hnum k) (hden k).le
  have hGpnonneg : ∀ k, 0 ≤ Gp k := fun k => div_nonneg (hnum k) (hdenp k).le
  have hGple : ∀ k, Gp k ≤ G k := by
    intro k
    by_cases hki : k = i
    · subst hki
      show (L k) ^ 2 * V k / (Rp k + eps) ≤ (L k) ^ 2 * V k / (R k + eps)
      rw [div_le_div_iff₀ (hdenp k) (hden k)]
      have hle : R k + eps ≤ Rp k + eps := by
        simp [hRpdef, Function.update_same, hr.le]
      exact mul_le_mul_of_nonneg_left hle (hnum k)
    · show (L k) ^ 2 * V k / (Rp k + eps) ≤ (L k) ^ 2 * V k / (R k + eps)
      rw [hRpdef, Function.update_noteq hki]
  have hK : (analyze_team_state L V Rp S kappa eps).K_team
      ≤ (analyze_team_state L V R S kappa eps).K_team := by
    rw [analyze_K_eq, analyze_K_eq, ← hGdef, ← hGpdef]
    refine Finset.sum_le_sum fun a _ => Finset.sum_le_sum fun b _ => ?_
    have h1 : kappa * Gp a ≤ kappa * G a :=
      mul_le_mul_of_nonneg_left (hGple a) hk.le
    have h2 : kappa * Gp a * Gp b ≤ kappa * G a * G b :=
      mul_le_mul h1 (hGple b) (hGpnonneg b) (mul_nonneg hk.le (hGnonneg a))
    exact mul_le_mul_of_nonneg_right h2 (hS0 a b)
  have hRsump : (∑ k, Rp k) = rp + ∑ k ∈ Finset.univ.erase i, R k := by
    rw [hRpdef, Finset.sum_update_of_mem (Finset.mem_univ i),
      Finset.sdiff_singleton_eq_erase]
  have hRsum : (∑ k, R k) = R i + ∑ k ∈ Finset.univ.erase i, R k :=
    (Finset.add_sum_erase _ _ (Finset.mem_univ i)).symm
  rw [analyze_Margin_eq, analyze_Margin_eq, analyze_D_eq, analyze_D_eq]
  rw [hRsump, hRsum]
  linarith [hK]

/-- Witness for C7 at a concrete input (`n = 1`, raising `R[0]` from 0 to 1). -/
theorem margin_strict_antitone_in_R_witness :
    (analyze_team_state (n := 1) ![2] ![3] (Function.update ![0] 0 1) ![![1]] 1 1).Margin
      < (analyze_team_state ![2] ![3] ![0] ![![1]] 1 1).Margin :=
  margin_strict_antitone_in_R ![2] ![3] ![0] ![![1]] 1 1 0 1
    (by decide) (by decide) (by decide) (by decide) (by decide)
    (by decide) (by decide) (by decide)

/-- Witness for C2 at a concrete input (`n = 2`, node pair `(0, 1)`). -/
theorem sensitivity_formulas_witness :
    (calculate_marginal_gains (n := 2) ![3, 4] ![2, 5] ![1, 2] ![![1, 1], ![1, 1]]
        2 1).2 0 1
      = 2 * compute_individual_gravity ![3, 4] ![2, 5] ![1, 2] 1 0
          * compute_individual_gravity ![3, 4] ![2, 5] ![1, 2] 1 1 + 1 :=
  (sensitivity_formulas ![3, 4] ![2, 5] ![1, 2] ![![1, 1], ![1, 1]] 2 1).2 0 1
    (by decide)

/-! ### Intervention optimizer (`suggest_interventions`, lines 82-135) -/

/-- A suggestion dictionary of `suggest_interventions`.  The Python key
`"Type"` is a reserved word in Lean and is embedded as `Type_`; `Target`
and `Target_2` store plain indices as in the source (`None` for an
`R`-suggestion). -/
structure Suggestion where
  Type_ : String
  Target : ℕ
  Target_2 : Option ℕ
  ROI : ℚ
  Cost : ℚ
  Impact : ℚ
  deriving DecidableEq

/-- The `costs` dict: `costs['cR']` per node, `costs['cS']` per pair. -/
structure Costs (n : ℕ) where
  cR : Fin n → ℚ
  cS : Fin n → Fin n → ℚ

/-- Loop A of `suggest_interventions` (lines 93-106): one candidate per node
with `gain = -dM_dR[i] * step`, `cost = costs['cR'][i] * step`, appended only
when `cost > 0` (no ROI is formed otherwise). -/
def rSuggestions {n : ℕ} (dM_dR : Fin n → ℚ) (costs : Costs n) (step : ℚ) :
    List Suggestion :=
  (List.finRange n).filterMap (fun i =>
    let gain := -dM_dR i * step
    let cost := costs.cR i * step
    if cost > 0 then
      some { Type_ := "Reduce Resistance (R)", Target := i.val, Target_2 := none,
             ROI := gain / cost, Cost := cost, Impact := gain }
    else none)

/-- Loop B of `suggest_interventions` (lines 109-122): one candidate per
pair `i < j` with `gain = dM_dS[i, j] * step`, `cost = costs['cS'][i, j] *
step`, appended only when `cost > 0`. -/
def sSuggestions {n : ℕ} (dM_dS : Fin n → Fin n → ℚ) (costs : Costs n)
    (step : ℚ) : List Suggestion :=
  (List.finRange n).flatMap (fun i =>
    ((List.finRange n).filter (fun j => i < j)).filterMap (fun j =>
      let gain := dM_dS i j * step
      let cost := costs.cS i j * step
      if cost > 0 then
        some { Type_ := "Boost Resonance (S)", Target := i.val,
               Target_2 := some j.val, ROI := gain / cost, Cost := cost,
               Impact := gain }
      else none))

/-- The ordering used by `suggestions.sort(key=lambda x: x['ROI'],
reverse=True)`: ROI descending. -/
def roiGE (a b : Suggestion) : Prop := b.ROI ≤ a.ROI

instance : DecidableRel roiGE :=
  fun a b => inferInstanceAs (Decidable (b.ROI ≤ a.ROI))

instance : IsTotal Suggestion roiGE := ⟨fun a b => le_total b.ROI a.ROI⟩

instance : IsTrans Suggestion roiGE := ⟨fun _ _ _ h1 h2 => le_trans h2 h1⟩

/-- The budget walk of lines 128-133: accumulate `current_spend`, accept a
move exactly when `current_spend + move['Cost'] <= budget`, and keep walking
(skip, not stop) otherwise. -/
def greedyFilter (budget : ℚ) : List Suggestion → ℚ → List Suggestion
  | [], _ => []
  | move :: rest, current_spend =>
    if current_spend + move.Cost ≤ budget then
      move :: greedyFilter budget rest (current_spend + move.Cost)
    else
      greedyFilter budget rest current_spend

/-- Embeds `suggest_interventions` (team_optimizer.py lines 82-135).
Python's `list.sort` is stable; sorting by ROI descending is embedded as
the stable `List.insertionSort` under `roiGE`, which yields the same list
as any stable sort by the same key. -/
def suggest_interventions {n : ℕ} (L V R : Fin n → ℚ) (S : Fin n → Fin n → ℚ)
    (costs : Costs n) (budget : ℚ) (step kappa eps : ℚ) : List Suggestion :=
  let dM := calculate_marginal_gains L V R S kappa eps
  let suggestions := rSuggestions dM.1 costs step ++ sSuggestions dM.2 costs step
  let sorted := suggestions.insertionSort roiGE
  greedyFilter budget sorted 0

/-- Total cost of a list of suggestions. -/
def sumCosts (l : List Suggestion) : ℚ := (l.map Suggestion.Cost).sum

lemma greedyFilter_spend_le (budget : ℚ) :
    ∀ (l : List Suggestion) (spend : ℚ), spend ≤ budget →
      spend + sumCosts (greedyFilter budget l spend) ≤ budget
  | [], spend, h => by simpa [greedyFilter, sumCosts] using h
  | move :: rest, spend, h => by
    by_cases hc : spend + move.Cost ≤ budget
    · rw [greedyFilter, if_pos hc]
      have ih := greedyFilter_spend_le budget rest (spend + move.Cost) hc
      simp only [sumCosts, List.map_cons, List.sum_cons] at ih ⊢
      linarith
    · rw [greedyFilter, if_neg hc]
      exact greedyFilter_spend_le budget rest spend h

lemma greedyFilter_sublist (budget : ℚ) :
    ∀ (l : List Suggestion) (spend : ℚ), (greedyFilter budget l spend).Sublist l
  | [], _ => by simp [greedyFilter]
  | move :: rest, spend => by
    by_cases hc : spend + move.Cost ≤ budget
    · rw [greedyFilter, if_pos hc]
      exact (greedyFilter_sublist budget rest (spend + move.Cost)).cons₂ move
    · rw [greedyFilter, if_neg hc]
      exact (greedyFilter_sublist budget rest spend).cons move

lemma mem_suggestions_cost_pos {n : ℕ} (dM_dR : Fin n → ℚ)
    (dM_dS : Fin n → Fin n → ℚ) (costs : Costs n) (step : ℚ)
    (move : Suggestion)
    (h : move ∈ rSuggestions dM_dR costs step ++ sSuggestions dM_dS costs step) :
    0 < move.Cost := by
  rcases List.mem_append.mp h with h | h
  · obtain ⟨i, -, hi⟩ := List.mem_filterMap.mp h
    by_cases hc : costs.cR i * step > 0
    · rw [if_pos hc] at hi
      cases hi
      exact hc
    · rw [if_neg hc] at hi
      exact absurd hi (by simp)
  · obtain ⟨i, -, hmem⟩ := List.mem_flatMap.mp h
    obtain ⟨j, -, hj⟩ := List.mem_filterMap.mp hmem
    by_cases hc : costs.cS i j * step > 0
    · rw [if_pos hc] at hj
      cases hj
      exact hc
    · rw [if_neg hc] at hj
      exact absurd hj (by simp)

/-- Claim C4: the sum of the costs of the returned suggestions never exceeds
a non-negative budget, and the greedy walk skips (rather than stops at) any
candidate whose cost would overflow the remaining budget, continuing with
the rest of the list unchanged. -/
theorem optimizer_budget_respected {n : ℕ} (L V R : Fin n → ℚ)
    (S : Fin n → Fin n → ℚ) (costs : Costs n) (budget step kappa eps : ℚ)
    (hb : 0 ≤ budget) :
    sumCosts (suggest_interventions L V R S costs budget step kappa eps) ≤ budget ∧
    ∀ (l : List Suggestion) (spend : ℚ) (move : Suggestion),
      budget < spend + move.Cost →
      greedyFilter budget (move :: l) spend = greedyFilter budget l spend := by
  constructor
  · have h := greedyFilter_spend_le budget
      ((rSuggestions (calculate_marginal_gains L V R S kappa eps).1 costs step
        ++ sSuggestions (calculate_marginal_gains L V R S kappa eps).2 costs
          step).insertionSort roiGE) 0 hb
    simpa [suggest_interventions] using h
  · intro l spend move hover
    rw [greedyFilter, if_neg (not_le.mpr hover)]

/-- A concrete suggestion used to exercise the skip branch of the walk. -/
def overflowMove : Suggestion :=
  { Type_ := "Reduce Resistance (R)", Target := 0, Target_2 := none,
    ROI := 1, Cost := 2, Impact := 2 }

/-- Witness for C4 at a concrete input: a 1-node snapshot with budget 5, and
a concrete skipped overflow step (spend 4, cost 2, budget 5). -/
theorem optimizer_budget_respected_witness :
    sumCosts (suggest_interventions (n := 1) ![0] ![0] ![0] ![![0]]
        ⟨![1], ![![1]]⟩ 5 1 1 1) ≤ 5 ∧
    greedyFilter 5 (overflowMove :: []) 4 = greedyFilter 5 [] 4 :=
  ⟨(optimizer_budget_respected ![0] ![0] ![0] ![![0]] ⟨![1], ![![1]]⟩ 5 1 1 1
      (by norm_num)).1,
    (optimizer_budget_respected ![0] ![0] ![0] ![![0]] ⟨![1], ![![1]]⟩ 5 1 1 1
      (by norm_num)).2 [] 4 overflowMove (by norm_num [overflowMove])⟩

/-- Claim C5: the returned list is ordered by non-increasing ROI, and every
returned suggestion has strictly positive cost (candidates with
non-positive cost never enter the candidate set, so no ROI is formed for
them and no error is raised). -/
theorem optimizer_order_and_cost_pos {n : ℕ} (L V R : Fin n → ℚ)
    (S : Fin n → Fin n → ℚ) (costs : Costs n) (budget step kappa eps : ℚ) :
    List.Pairwise roiGE
      (suggest_interventions L V R S costs budget step kappa eps) ∧
    ∀ move ∈ suggest_interventions L V R S costs budget step kappa eps,
      0 < move.Cost := by
  constructor
  · exact List.Pairwise.sublist (greedyFilter_sublist budget _ 0)
      (List.sorted_insertionSort roiGE _)
  · intro move hmove
    have hsorted : move ∈ (rSuggestions
        (calculate_marginal_gains L V R S kappa eps).1 costs step
      ++ sSuggestions (calculate_marginal_gains L V R S kappa eps).2 costs
        step).insertionSort roiGE :=
      (greedyFilter_sublist budget _ 0).subset hmove
    exact mem_suggestions_cost_pos _ _ costs step move
      ((List.mem_insertionSort roiGE).mp hsorted)

/-- Witness for C5 at a concrete input: the 1-node snapshot produces exactly
one suggestion, whose cost is strictly positive, and the output is
ROI-sorted. -/
theorem optimizer_order_and_cost_pos_witness :
    List.Pairwise roiGE
      (suggest_interventions (n := 1) ![0] ![0] ![0] ![![0]] ⟨![1], ![![1]]⟩ 5 1 1 1) ∧
    0 < (Suggestion.mk "Reduce Resistance (R)" 0 none 1 1 1).Cost := by
  have hval : suggest_interventions (n := 1) ![0] ![0] ![0] ![![0]]
      ⟨![1], ![![1]]⟩ 5 1 1 1
      = [Suggestion.mk "Reduce Resistance (R)" 0 none 1 1 1] := by
    norm_num [suggest_interventions, calculate_marginal_gains,
      compute_individual_gravity, rSuggestions, sSuggestions, greedyFilter,
      roiGE, List.finRange, List.insertionSort, List.orderedInsert,
      Suggestion.mk.injEq, Finset.sum_filter]
  refine ⟨(optimizer_order_and_cost_pos ![0] ![0] ![0] ![![0]]
      ⟨![1], ![![1]]⟩ 5 1 1 1).1, ?_⟩
  exact (optimizer_order_and_cost_pos ![0] ![0] ![0] ![![0]]
      ⟨![1], ![![1]]⟩ 5 1 1 1).2 _ (by rw [hval]; exact List.mem_singleton_self _)

/-! ### Dynamic (list-level) model

`analyze_team_state` performs no shape validation; what happens on
mis-shaped inputs is decided by numpy array semantics.  The same routines
are therefore also modelled on `List ℚ` / `List (List ℚ)`, with the runtime
errors numpy or Python would raise made explicit in `Except`:
`valueError` for an elementwise broadcast failure, `indexError` for an
out-of-range access, `nameError` for a reference to an undefined name. -/

inductive PyErr
  | valueError
  | indexError
  | nameError
  deriving DecidableEq

/-- Numpy elementwise combination of two 1-D arrays: equal lengths act
pointwise, a length-1 array broadcasts against the other, any other pair of
lengths raises a broadcast `ValueError`. -/
def broadcast2 (f : ℚ → ℚ → ℚ) (a b : List ℚ) : Except PyErr (List ℚ) :=
  if a.length = b.length then .ok (List.zipWith f a b)
  else if a.length = 1 then .ok (b.map (f (a.headD 0)))
  else if b.length = 1 then .ok (a.map (fun x => f x (b.headD 0)))
  else .error .valueError

/-- List-level `compute_individual_gravity`:
`(np.array(L)**2 * np.array(V)) / (np.array(R) + eps)`. -/
def compute_individual_gravity_list (L V R : List ℚ) (eps : ℚ) :
    Except PyErr (List ℚ) := do
  let L2V ← broadcast2 (· * ·) (L.map (· ^ 2)) V
  broadcast2 (· / ·) L2V (R.map (· + eps))

/-- `S[i, j]` as an optional access into a 2-D array. -/
def matGet? (S : List (List ℚ)) (i j : ℕ) : Option ℚ :=
  S[i]?.bind (fun row => row[j]?)

/-- One step of the `K_team` accumulation: `K_team += kappa * G[i] * G[j] *
S[i, j]`, raising `IndexError` when an index is out of range. -/
def kTermStep (G : List ℚ) (S : List (List ℚ)) (kappa : ℚ) (i j : ℕ)
    (acc : ℚ) : Except PyErr ℚ :=
  match G[i]?, G[j]?, matGet? S i j with
  | some gi, some gj, some sij => .ok (acc + kappa * gi * gj * sij)
  | _, _, _ => .error .indexError

/-- The nested loop of `analyze_team_state` lines 32-35: `for i in range(n):
for j in range(i+1, n)`. -/
def kTeamLoop (G : List ℚ) (S : List (List ℚ)) (kappa : ℚ) (n : ℕ) :
    Except PyErr ℚ :=
  (List.range n).foldlM (fun acc i =>
    ((List.range n).drop (i + 1)).foldlM
      (fun acc2 j => kTermStep G S kappa i j acc2) acc) 0

/-- `np.triu(1 - S, 1).sum()`: the sum of `1 - S[i, j]` over every entry of
the whole array `S` that lies strictly above the diagonal.  Note the range
is governed by the dimensions of `S` itself, not by `len(L)`. -/
def triuMisalignment (S : List (List ℚ)) : ℚ :=
  (S.enum.map (fun p =>
    ((p.2.enum.filter (fun q => p.1 < q.1)).map (fun q => 1 - q.2)).sum)).sum

/-- The dictionary returned by the list-level `analyze_team_state`. -/
structure MetricsL where
  G : List ℚ
  K_team : ℚ
  D_team : ℚ
  Margin : ℚ
  Is_Stable : Bool
  deriving DecidableEq

/-- List-level embedding of `analyze_team_state` (team_optimizer.py lines
20-47), keeping the dynamic behaviour: `n = len(L)`, no shape check of any
kind, the `K` loop indexes `G` and `S` (raising on out-of-range), and the
misalignment term sums the upper triangle of all of `S`. -/
def analyze_team_state_list (L V R : List ℚ) (S : List (List ℚ))
    (kappa eps : ℚ) : Except PyErr MetricsL := do
  let n := L.length
  let G ← compute_individual_gravity_list L V R eps
  let K_team ← kTeamLoop G S kappa n
  let misalignment := triuMisalignment S
  let D_team := R.sum + misalignment
  .ok { G := G
        K_team := K_team
        D_team := D_team
        Margin := K_team - D_team
        Is_Stable := decide (K_team > D_team) }

instance {ε α : Type} [DecidableEq ε] [DecidableEq α] : DecidableEq (Except ε α) :=
  fun a b =>
    match a, b with
    | .error e, .error f =>
      if h : e = f then isTrue (h ▸ rfl)
      else isFalse (fun hc => h (by injection hc))
    | .error _, .ok _ => isFalse (fun hc => Except.noConfusion hc)
    | .ok _, .error _ => isFalse (fun hc => Except.noConfusion hc)
    | .ok x, .ok y =>
      if h : x = y then isTrue (h ▸ rfl)
      else isFalse (fun hc => h (by injection hc))

lemma except_bind_ok {α β : Type} (a : α) (k : α → Except PyErr β) :
    (Except.ok a >>= k) = k a := rfl

lemma except_bind_error {α β : Type} (e : PyErr) (k : α → Except PyErr β) :
    ((Except.error e : Except PyErr α) >>= k) = .error e := rfl

lemma analyze_list_error_of_gravity (L V R : List ℚ) (S : List (List ℚ))
    (kappa eps : ℚ) (e : PyErr)
    (h : compute_individual_gravity_list L V R eps = .error e) :
    analyze_team_state_list L V R S kappa eps = .error e := by
  unfold analyze_team_state_list
  rw [h, except_bind_error]

lemma analyze_list_ok_of (L V R : List ℚ) (S : List (List ℚ)) (kappa eps : ℚ)
    (G : List ℚ) (K : ℚ)
    (h1 : compute_individual_gravity_list L V R eps = .ok G)
    (h2 : kTeamLoop G S kappa L.length = .ok K) :
    analyze_team_state_list L V R S kappa eps
      = .ok { G := G, K_team := K,
              D_team := R.sum + triuMisalignment S,
              Margin := K - (R.sum + triuMisalignment S),
              Is_Stable := decide (K > R.sum + triuMisalignment S) } := by
  unfold analyze_team_state_list
  rw [h1, except_bind_ok]
  show (kTeamLoop G S kappa L.length >>= fun K_team =>
    (.ok { G := G, K_team := K_team,
           D_team := R.sum + triuMisalignment S,
           Margin := K_team - (R.sum + triuMisalignment S),
           Is_Stable := decide (K_team > R.sum + triuMisalignment S) }
      : Except PyErr MetricsL)) = _
  rw [h2, except_bind_ok]

lemma foldlM_ok_of_forall {α β : Type} (f : β → α → Except PyErr β) :
    ∀ (xs : List α), (∀ acc a, a ∈ xs → ∃ v, f acc a = .ok v) →
      ∀ init, ∃ v, xs.foldlM f init = .ok v
  | [], _, init => ⟨init, rfl⟩
  | x :: xs, h, init => by
    obtain ⟨v, hv⟩ := h init x (List.mem_cons_self x xs)
    rw [List.foldlM_cons, hv]
    show ∃ w, xs.foldlM f v = .ok w
    exact foldlM_ok_of_forall f xs
      (fun acc a ha => h acc a (List.mem_cons_of_mem _ ha)) v

lemma gravity_list_ok (L V R : List ℚ) (eps : ℚ)
    (h1 : L.length = V.length) (h2 : L.length = R.length) :
    ∃ G : List ℚ, compute_individual_gravity_list L V R eps = .ok G ∧
      G.length = L.length := by
  have hb1 : broadcast2 (· * ·) (L.map (· ^ 2)) V
      = .ok (List.zipWith (· * ·) (L.map (· ^ 2)) V) := by
    simp [broadcast2, h1]
  have hlen1 : (List.zipWith (· * ·) (L.map (· ^ 2)) V).length = L.length := by
    simp [List.length_zipWith, h1]
  have hb2 : broadcast2 (· / ·) (List.zipWith (· * ·) (L.map (· ^ 2)) V)
      (R.map (· + eps))
      = .ok (List.zipWith (· / ·) (List.zipWith (· * ·) (L.map (· ^ 2)) V)
          (R.map (· + eps))) := by
    simp [broadcast2, hlen1, ← h2]
  refine ⟨List.zipWith (· / ·) (List.zipWith (· * ·) (L.map (· ^ 2)) V)
    (R.map (· + eps)), ?_, ?_⟩
  · show (broadcast2 (· * ·) (L.map (· ^ 2)) V
      >>= fun L2V => broadcast2 (· / ·) L2V (R.map (· + eps))) = _
    rw [hb1, except_bind_ok]
    exact hb2
  · rw [List.length_zipWith, hlen1, List.length_map, ← h2, min_self]

lemma kTeamLoop_ok (G : List ℚ) (S : List (List ℚ)) (kappa : ℚ) (n : ℕ)
    (hG : n ≤ G.length) (hS : n ≤ S.length)
    (hrow : ∀ row ∈ S, n ≤ row.length) :
    ∃ v, kTeamLoop G S kappa n = .ok v := by
  refine foldlM_ok_of_forall _ (List.range n) (fun acc i hi => ?_) 0
  have hi' : i < n := List.mem_range.mp hi
  refine foldlM_ok_of_forall _ _ (fun acc2 j hj => ?_) acc
  have hj' : j < n := List.mem_range.mp (List.mem_of_mem_drop hj)
  have hgi : G[i]? = some G[i] := List.getElem?_eq_getElem (lt_of_lt_of_le hi' hG)
  have hgj : G[j]? = some G[j] := List.getElem?_eq_getElem (lt_of_lt_of_le hj' hG)
  have hsi : S[i]? = some S[i] := List.getElem?_eq_getElem (lt_of_lt_of_le hi' hS)
  have hrowlen : n ≤ S[i].length := hrow _ (List.getElem_mem _)
  have hsij : (S[i])[j]? = some (S[i])[j] :=
    List.getElem?_eq_getElem (lt_of_lt_of_le hj' hrowlen)
  have hstep : kTermStep G S kappa i j acc2
      = .ok (acc2 + kappa * G[i] * G[j] * (S[i])[j]) := by
    simp [kTermStep, matGet?, hgi, hgj, hsi, hsij]
  exact ⟨_, hstep⟩

/-- Counterexample to claim C3 as stated: `L`, `V`, `R` have node count 2
while `S` is 3-by-3, yet the Evaluator does not fail with any error — it
silently returns a result, and its `D_team`/`Margin` even incorporate the
entries of `S` outside the leading 2-by-2 block (the misalignment total is
3, counting all three upper-triangle cells of the 3-by-3 matrix, where a
pure truncation to 2 nodes would give 1). -/
theorem shape_mismatch_counterexample :
    analyze_team_state_list [1, 1] [1, 1] [0, 0]
        [[0, 0, 0], [0, 0, 0], [0, 0, 0]] 0.02 0.1
      = .ok { G := [10, 10], K_team := 0, D_team := 3, Margin := -3,
              Is_Stable := false } := by
  norm_num [analyze_team_state_list, compute_individual_gravity_list, broadcast2,
    kTeamLoop, kTermStep, matGet?, triuMisalignment, List.foldlM_cons,
    List.foldlM_nil, except_bind_ok, except_bind_error, List.range_succ,
    List.enum, MetricsL.mk.injEq]

/-- Claim C3 amended: the Evaluator performs no shape validation of its own.
When the lengths of `L`, `V` disagree (no numpy length-1 broadcast
applying), the elementwise gravity computation raises a generic broadcast
`ValueError` — not a `ShapeMismatch` error.  When `L`, `V`, `R` agree on a
node count `n` but `S` is at least `n`-by-`n` (possibly strictly larger),
the call does not fail at all: it silently returns a result whose friction
total `D` sums the misalignment over the whole of `S`, including any
entries outside the leading `n`-by-`n` block. -/
theorem shape_mismatch_amended :
    (∀ (L V R : List ℚ) (S : List (List ℚ)) (kappa eps : ℚ),
        L.length ≠ V.length → L.length ≠ 1 → V.length ≠ 1 →
        analyze_team_state_list L V R S kappa eps = .error .valueError) ∧
    (∀ (L V R : List ℚ) (S : List (List ℚ)) (kappa eps : ℚ),
        L.length = V.length → L.length = R.length →
        L.length ≤ S.length → (∀ row ∈ S, L.length ≤ row.length) →
        (analyze_team_state_list L V R S kappa eps).map (fun m => m.D_team)
          = .ok (R.sum + triuMisalignment S)) := by
  constructor
  · intro L V R S kappa eps hne hL1 hV1
    have hbad : compute_individual_gravity_list L V R eps = .error .valueError := by
      have : broadcast2 (· * ·) (L.map (· ^ 2)) V = .error .valueError := by
        simp [broadcast2, hne, hL1, hV1]
      show (broadcast2 (· * ·) (L.map (· ^ 2)) V
        >>= fun L2V => broadcast2 (· / ·) L2V (R.map (· + eps))) = _
      rw [this, except_bind_error]
    exact analyze_list_error_of_gravity L V R S kappa eps _ hbad
  · intro L V R S kappa eps h1 h2 hS hrow
    obtain ⟨G, hGok, hGlen⟩ := gravity_list_ok L V R eps h1 h2
    obtain ⟨K, hKok⟩ := kTeamLoop_ok G S kappa L.length (le_of_eq hGlen.symm) hS hrow
    rw [analyze_list_ok_of L V R S kappa eps G K hGok hKok]
    rfl

/-! ### Stress testing (`stress_test.py`)

`run_monte_carlo_simulation` draws `np.random.normal` noise and is therefore
not modelled as a function of its arguments; where its aggregate result is
needed (in the report), it is abstracted as an arbitrary `MCResult`. -/

/-- The aggregate record returned by `run_monte_carlo_simulation`. -/
structure MCResult where
  Mean_Margin : ℚ
  Min_Margin : ℚ
  Unstable_Probability : ℚ
  Percentile5 : ℚ

/-- `np.argmax`: the index of the first maximal entry (0 on an empty list,
though `run_worst_case_scenarios` only applies it to a nonempty `G`). -/
def argmax (xs : List ℚ) : ℕ :=
  (xs.enum.foldl (fun best p => if p.2 > best.2 then p else best)
    (0, xs.headD 0)).1

/-- The strongest-edge search of `run_worst_case_scenarios` lines 59-66:
state `(max_k, strongest_edge)` initialised to `(-1, (0, 1))`, scanning all
pairs `i < j < n`. -/
def strongestEdge (G : List ℚ) (S : List (List ℚ)) (kappa : ℚ) (n : ℕ) :
    Except PyErr (ℚ × ℕ × ℕ) :=
  (List.range n).foldlM (fun st i =>
    ((List.range n).drop (i + 1)).foldlM (fun st2 j =>
      match G[i]?, G[j]?, matGet? S i j with
      | some gi, some gj, some sij =>
        let k := kappa * gi * gj * sij
        if k > st2.1 then .ok (k, i, j) else .ok st2
      | _, _, _ => .error .indexError) st) (-1, 0, 1)

/-- `S[i][j]` with numpy-style in-range reads, defaulting out of range (all
uses below are in range). -/
def matGetD (S : List (List ℚ)) (i j : ℕ) : ℚ := (S.getD i []).getD j 0

/-- Write `S[i][j] = x` (no-op out of range; all uses below are in range). -/
def matSet (S : List (List ℚ)) (i j : ℕ) (x : ℚ) : List (List ℚ) :=
  S.set i ((S.getD i []).set j x)

/-- One scenario record of `run_worst_case_scenarios` (the human-readable
`Description` string is not modelled). -/
structure Scenario where
  Margin_Drop : ℚ
  New_Margin : ℚ
  deriving DecidableEq

/-- The full return value of `run_worst_case_scenarios`: the three scenario
records plus the second tuple component `base_metrics['Margin']`. -/
structure WorstCase where
  Edge_Break : Scenario
  R_Spike : Scenario
  Node_Exit : Scenario
  base_margin : ℚ
  deriving DecidableEq

/-- Embeds `run_worst_case_scenarios` (stress_test.py lines 46-107):
base evaluation, top node by `np.argmax(G)`, strongest edge scan, then the
three perturbed snapshots — Edge Break (`S[u,v] *= 0.6` both ways), R-Spike
(`R[top] += 0.6`), Node Exit (boolean-mask removal of the top node row and
column, embedded as `eraseIdx`). -/
def run_worst_case_scenarios (L V R : List ℚ) (S : List (List ℚ))
    (kappa eps : ℚ) : Except PyErr WorstCase := do
  let base ← analyze_team_state_list L V R S kappa eps
  let n := L.length
  let G := base.G
  let top := argmax G
  let se ← strongestEdge G S kappa n
  let u := se.2.1
  let v := se.2.2
  let S1 := matSet S u v (matGetD S u v * 0.6)
  let S_broken := matSet S1 v u (matGetD S1 v u * 0.6)
  let res_a ← analyze_team_state_list L V R S_broken kappa eps
  let R_spiked := R.set top (R.getD top 0 + 0.6)
  let res_b ← analyze_team_state_list L V R_spiked S kappa eps
  let L_rem := L.eraseIdx top
  let V_rem := V.eraseIdx top
  let R_rem := R.eraseIdx top
  let S_rem := (S.eraseIdx top).map (fun row => row.eraseIdx top)
  let res_c ← analyze_team_state_list L_rem V_rem R_rem S_rem kappa eps
  .ok { Edge_Break := { Margin_Drop := base.Margin - res_a.Margin,
                        New_Margin := res_a.Margin }
        R_Spike := { Margin_Drop := base.Margin - res_b.Margin,
                     New_Margin := res_b.Margin }
        Node_Exit := { Margin_Drop := base.Margin - res_c.Margin,
                       New_Margin := res_c.Margin }
        base_margin := base.Margin }

/-- The 4-node fixture of `stress_test.py` lines 155-163 (only the upper
triangle of `S` is reassigned there; the lower triangle and diagonal remain
at 0.5, exactly as after `np.ones((n, n)) * 0.5`). -/
def fixtureL : List ℚ := [12, 10, 5, 8]

def fixtureV : List ℚ := [8, 6, 4, 9]

def fixtureR : List ℚ := [0.2, 0.8, 1.5, 0.3]

def fixtureS : List (List ℚ) :=
  [[0.5, 0.8, 0.3, 0.5],
   [0.5, 0.5, 0.2, 0.5],
   [0.5, 0.5, 0.5, 0.5],
   [0.5, 0.5, 0.5, 0.5]]

/-- Embeds `print_stress_report` (stress_test.py lines 109-152) up to its
I/O: the Monte-Carlo aggregate is abstracted as `mc` (its randomness cannot
fail on a well-shaped snapshot), the printing itself is dropped, and the
control flow of lines 131-152 is kept.  Line 132 interpolates
`base_metrics["Margin"]` where `base_metrics` is not a parameter or local of
the function: it resolves to the module-level global defined only by the
`__main__` block (line 168), modelled by the `globalBaseMetrics` argument
(`none` = the name is undefined, as in any ordinary library call), and its
absence raises `NameError` at that point.  The remaining lines sort the
scenarios by `Margin_Drop` descending (Python stable sort, embedded as
stable insertion sort) and select the critical threat; they cannot fail. -/
def print_stress_report (globalBaseMetrics : Option MetricsL) (mc : MCResult)
    (L V R : List ℚ) (S : List (List ℚ)) : Except PyErr Unit := do
  let _fragile := decide (mc.Unstable_Probability > 0.05)
  let wc ← run_worst_case_scenarios L V R S 0.02 0.1
  match globalBaseMetrics with
  | none => .error .nameError
  | some _ =>
    let scenarios := [wc.Edge_Break, wc.R_Spike, wc.Node_Exit]
    let sorted := scenarios.insertionSort
      (fun a b => b.Margin_Drop ≤ a.Margin_Drop)
    let _most_dangerous := sorted.headD wc.Edge_Break
    .ok ()

/-- The exact value `run_worst_case_scenarios` returns on the fixture (all
quantities exact rationals; the floats of the source agree to within the
claimed 1e-9 tolerance). -/
def wcFixture : WorstCase :=
  { Edge_Break := { Margin_Drop := 110593 / 5, New_Margin := 1293571 / 15 }
    R_Spike := { Margin_Drop := 976969 / 15, New_Margin := 216127 / 5 }
    Node_Exit := { Margin_Drop := 488472 / 5, New_Margin := 159934 / 15 }
    base_margin := 325070 / 3 }

set_option maxHeartbeats 1000000 in
lemma wc_base_eval :
    analyze_team_state_list fixtureL fixtureV fixtureR fixtureS 0.02 0.1
      = .ok { G := [3840, 2000 / 3, 125 / 2, 1440], K_team := 325088 / 3,
              D_team := 6, Margin := 325070 / 3, Is_Stable := true } := by
  have hrange : List.range 4 = [0, 1, 2, 3] := by simp [List.range_succ]
  norm_num [analyze_team_state_list, compute_individual_gravity_list,
    broadcast2, kTeamLoop, kTermStep, matGet?, triuMisalignment,
    fixtureL, fixtureV, fixtureR, fixtureS, hrange,
    List.foldlM_cons, List.foldlM_nil, except_bind_ok, List.enum,
    MetricsL.mk.injEq]

lemma wc_argmax_eval : argmax [3840, 2000 / 3, 125 / 2, 1440] = 0 := by
  norm_num [argmax, List.enum]

set_option maxHeartbeats 1000000 in
lemma wc_edge_eval :
    strongestEdge [3840, 2000 / 3, 125 / 2, 1440] fixtureS 0.02 4
      = .ok (55296, 0, 3) := by
  have hrange : List.range 4 = [0, 1, 2, 3] := by simp [List.range_succ]
  norm_num [strongestEdge, matGet?, fixtureS, hrange,
    List.foldlM_cons, List.foldlM_nil, except_bind_ok]

lemma wc_sbroken_eval :
    matSet (matSet fixtureS 0 3 (matGetD fixtureS 0 3 * 0.6)) 3 0
      (matGetD (matSet fixtureS 0 3 (matGetD fixtureS 0 3 * 0.6)) 3 0 * 0.6)
      = [[1 / 2, 4 / 5, 3 / 10, 3 / 10], [1 / 2, 1 / 2, 1 / 5, 1 / 2],
         [1 / 2, 1 / 2, 1 / 2, 1 / 2], [3 / 10, 1 / 2, 1 / 2, 1 / 2]] := by
  norm_num [matSet, matGetD, fixtureS, List.getD]

set_option maxHeartbeats 1000000 in
lemma wc_resa_eval :
    analyze_team_state_list fixtureL fixtureV fixtureR
      [[1 / 2, 4 / 5, 3 / 10, 3 / 10], [1 / 2, 1 / 2, 1 / 5, 1 / 2],
       [1 / 2, 1 / 2, 1 / 2, 1 / 2], [3 / 10, 1 / 2, 1 / 2, 1 / 2]] 0.02 0.1
      = .ok { G := [3840, 2000 / 3, 125 / 2, 1440], K_team := 1293664 / 15,
              D_team := 31 / 5, Margin := 1293571 / 15, Is_Stable := true } := by
  have hrange : List.range 4 = [0, 1, 2, 3] := by simp [List.range_succ]
  norm_num [analyze_team_state_list, compute_individual_gravity_list,
    broadcast2, kTeamLoop, kTermStep, matGet?, triuMisalignment,
    fixtureL, fixtureV, fixtureR, hrange,
    List.foldlM_cons, List.foldlM_nil, except_bind_ok, List.enum,
    MetricsL.mk.injEq]

lemma wc_rspiked_eval :
    fixtureR.set 0 (fixtureR.getD 0 0 + 0.6) = [4 / 5, 4 / 5, 3 / 2, 3 / 10] := by
  norm_num [fixtureR, List.getD]

set_option maxHeartbeats 1000000 in
lemma wc_resb_eval :
    analyze_team_state_list fixtureL fixtureV [4 / 5, 4 / 5, 3 / 2, 3 / 10]
      fixtureS 0.02 0.1
      = .ok { G := [1280, 2000 / 3, 125 / 2, 1440], K_team := 43232,
              D_team := 33 / 5, Margin := 216127 / 5, Is_Stable := true } := by
  have hrange : List.range 4 = [0, 1, 2, 3] := by simp [List.range_succ]
  norm_num [analyze_team_state_list, compute_individual_gravity_list,
    broadcast2, kTeamLoop, kTermStep, matGet?, triuMisalignment,
    fixtureL, fixtureV, fixtureS, hrange,
    List.foldlM_cons, List.foldlM_nil, except_bind_ok, List.enum,
    MetricsL.mk.injEq]

lemma wc_erase_evalL : fixtureL.eraseIdx 0 = [10, 5, 8] := by
  norm_num [fixtureL]

lemma wc_erase_evalV : fixtureV.eraseIdx 0 = [6, 4, 9] := by
  norm_num [fixtureV]

lemma wc_erase_evalR : fixtureR.eraseIdx 0 = [4 / 5, 3 / 2, 3 / 10] := by
  norm_num [fixtureR]

lemma wc_erase_evalS :
    (fixtureS.eraseIdx 0).map (fun row => row.eraseIdx 0)
      = [[1 / 2, 1 / 5, 1 / 2], [1 / 2, 1 / 2, 1 / 2],
         [1 / 2, 1 / 2, 1 / 2]] := by
  norm_num [fixtureS]

set_option maxHeartbeats 1000000 in
lemma wc_resc_eval :
    analyze_team_state_list [10, 5, 8] [6, 4, 9] [4 / 5, 3 / 2, 3 / 10]
      [[1 / 2, 1 / 5, 1 / 2], [1 / 2, 1 / 2, 1 / 2], [1 / 2, 1 / 2, 1 / 2]]
      0.02 0.1
      = .ok { G := [2000 / 3, 125 / 2, 1440], K_team := 32000 / 3,
              D_team := 22 / 5, Margin := 159934 / 15, Is_Stable := true } := by
  have hrange : List.range 3 = [0, 1, 2] := by simp [List.range_succ]
  norm_num [analyze_team_state_list, compute_individual_gravity_list,
    broadcast2, kTeamLoop, kTermStep, matGet?, triuMisalignment, hrange,
    List.foldlM_cons, List.foldlM_nil, except_bind_ok, List.enum,
    MetricsL.mk.injEq]

set_option maxHeartbeats 1000000 in
lemma run_worst_case_fixture_eq :
    run_worst_case_scenarios fixtureL fixtureV fixtureR fixtureS 0.02 0.1
      = .ok wcFixture := by
  have hlen : fixtureL.length = 4 := by norm_num [fixtureL]
  simp only [run_worst_case_scenarios, wc_base_eval, except_bind_ok, hlen,
    wc_argmax_eval, wc_edge_eval, wc_sbroken_eval, wc_resa_eval,
    wc_rspiked_eval, wc_resb_eval, wc_erase_evalL, wc_erase_evalV,
    wc_erase_evalR, wc_erase_evalS, wc_resc_eval]
  norm_num [wcFixture, WorstCase.mk.injEq, Scenario.mk.injEq]

/-- Claim C8: on the fixed 4-node fixture (kappa = 0.02, eps = 0.1), the
Node-Exit scenario (removing the highest-gravity node and its row/column)
yields a margin no greater than the base margin, and each scenario's
`Margin_Drop` equals base margin minus perturbed margin to within 1e-9. -/
theorem worst_case_fixture_bounds :
    run_worst_case_scenarios fixtureL fixtureV fixtureR fixtureS 0.02 0.1
      = .ok wcFixture ∧
    wcFixture.Node_Exit.New_Margin ≤ wcFixture.base_margin ∧
    |wcFixture.Edge_Break.Margin_Drop
      - (wcFixture.base_margin - wcFixture.Edge_Break.New_Margin)|
      ≤ 1 / 1000000000 ∧
    |wcFixture.R_Spike.Margin_Drop
      - (wcFixture.base_margin - wcFixture.R_Spike.New_Margin)|
      ≤ 1 / 1000000000 ∧
    |wcFixture.Node_Exit.Margin_Drop
      - (wcFixture.base_margin - wcFixture.Node_Exit.New_Margin)|
      ≤ 1 / 1000000000 := by
  refine ⟨run_worst_case_fixture_eq, ?_, ?_, ?_, ?_⟩ <;> norm_num [wcFixture]

/-- Claim C9 (code bug): called as a library function — that is, without the
module-level global `base_metrics` that only the `__main__` block defines —
the batch report raises `NameError` on the module's own fixture instead of
running to completion, whatever the Monte-Carlo draw produced. -/
theorem batch_report_raises_nameerror (mc : MCResult) :
    print_stress_report none mc fixtureL fixtureV fixtureR fixtureS
      = .error .nameError := by
  show (run_worst_case_scenarios fixtureL fixtureV fixtureR fixtureS 0.02 0.1
    >>= fun wc =>
      (match (none : Option MetricsL) with
       | none => .error .nameError
       | some _ =>
         let scenarios := [wc.Edge_Break, wc.R_Spike, wc.Node_Exit]
         let sorted := scenarios.insertionSort
           (fun a b => b.Margin_Drop ≤ a.Margin_Drop)
         let _most_dangerous := sorted.headD wc.Edge_Break
         .ok ())) = .error .nameError
  rw [run_worst_case_fixture_eq, except_bind_ok]

/-- Witness for the amended C3 at concrete inputs: a genuine length mismatch
between `L` and `V` raises the broadcast error, and a 2-node snapshot with a
3-by-3 `S` silently succeeds with the full-matrix misalignment in `D`. -/
theorem shape_mismatch_amended_witness :
    analyze_team_state_list [1, 2] [1, 2, 3] [0, 0] [] 0.02 0.1
        = .error .valueError ∧
    (analyze_team_state_list [1, 1] [1, 1] [0, 0]
        [[0, 0, 0], [0, 0, 0], [0, 0, 0]] 0.02 0.1).map (fun m => m.D_team)
      = .ok ((0 : ℚ) + 0 + triuMisalignment [[0, 0, 0], [0, 0, 0], [0, 0, 0]]) :=
  ⟨shape_mismatch_amended.1 [1, 2] [1, 2, 3] [0, 0] [] 0.02 0.1
      (by decide) (by decide) (by decide),
    by
      have h := shape_mismatch_amended.2 [1, 1] [1, 1] [0, 0]
        [[0, 0, 0], [0, 0, 0], [0, 0, 0]] 0.02 0.1
        (by decide) (by decide) (by decide)
        (by intro row hrow; fin_cases hrow <;> decide)
      simpa using h⟩

end LoveOS
